import Mathlib

/-!
Verification of the video-processor pipeline core against its specification.

The definitions below are a shallow embedding of the Python sources:
* `src/video_processor/video_editor.py` (timestamp parsing/formatting, trim planning),
* `src/video_processor/thumbnail_processor.py` (title-clip synthesis and concatenation requests),
* `src/video_processor/pipeline.py` (step functions and output publishing).

External collaborators (ffmpeg execution, the filesystem, model inference) are
modelled by the requests the code builds for them; numeric time values are
embedded as rationals (Python floats never overflow or round in the tiny
ranges used here, so exact rationals are a faithful model of the arithmetic).
-/

deriving instance DecidableEq for Except

namespace VideoProcessor

/-! ## Timestamp utility (video_editor.py, `parse_timestamp` / `format_timestamp`) -/

/-- Errors raised by `video_editor.py` as `ValueError` messages, one constructor
per distinct message site. -/
inductive VEError where
  | invalidFormat
  | invalidSeconds
  | startBeyondDuration
  | startAfterEnd
deriving DecidableEq

/-- First code points of the decades of Unicode decimal digits (category
`Nd`), from the Unicode 14.0.0 database shipped with CPython 3.11: every `Nd`
character lies in a run of ten consecutive code points whose decimal values
are 0–9 in order, and these are the first code points of those runs
(`0x30 = 48` is the ASCII `0`–`9` decade). -/
def ndDecadeStarts : List Nat :=
  [48, 1632, 1776, 1984, 2406, 2534, 2662, 2790, 2918, 3046, 3174, 3302,
   3430, 3558, 3664, 3792, 3872, 4160, 4240, 6112, 6160, 6470, 6608, 6784,
   6800, 6992, 7088, 7232, 7248, 42528, 43216, 43264, 43472, 43504, 43600,
   44016, 65296, 66720, 68912, 69734, 69872, 69942, 70096, 70384, 70736,
   70864, 71248, 71360, 71472, 71904, 72016, 72784, 73040, 73120, 92768,
   92864, 93008, 120782, 120792, 120802, 120812, 120822, 123200, 123632,
   125264, 130032]

/-- `\d` of an (unflagged) `str`-pattern regex: any Unicode decimal digit
(category `Nd`), not only ASCII `0`–`9`. -/
def isDig (c : Char) : Bool :=
  ndDecadeStarts.any (fun s => decide (s ≤ c.toNat) && decide (c.toNat < s + 10))

/-- Decimal value of a digit character, as `int(...)` computes it for every
Unicode decimal digit (position within its `Nd` decade); 0 on non-digits,
which `matchMMSS` never feeds it. -/
def digitVal (c : Char) : Nat :=
  match ndDecadeStarts.find? (fun s => decide (s ≤ c.toNat) && decide (c.toNat < s + 10)) with
  | some s => c.toNat - s
  | none => 0

/-- The regex match of `parse_timestamp`: `re.match(r'^(\d{1,2}):(\d{2})$', ...)`.
Without `re.MULTILINE`, `$` matches at the end of the string or just before a
single `'\n'` that ends it, so a match exists exactly for `d:dd` and `dd:dd`
optionally followed by one trailing newline (lists of length 4–6); on success
it returns the numeric values of the minute and second groups
(`int(match.group(1))`, `int(match.group(2))`), digits interpreted by their
Unicode decimal values. -/
def matchMMSS : List Char → Option (Nat × Nat)
  | [a, b, c, d] =>
    if b = ':' && isDig a && isDig c && isDig d then
      some (digitVal a, 10 * digitVal c + digitVal d)
    else
      none
  | [a, b, c, d, e] =>
    if b = ':' && e = '\n' && isDig a && isDig c && isDig d then
      some (digitVal a, 10 * digitVal c + digitVal d)
    else if c = ':' && isDig a && isDig b && isDig d && isDig e then
      some (10 * digitVal a + digitVal b, 10 * digitVal d + digitVal e)
    else
      none
  | [a, b, c, d, e, f] =>
    if c = ':' && f = '\n' && isDig a && isDig b && isDig d && isDig e then
      some (10 * digitVal a + digitVal b, 10 * digitVal d + digitVal e)
    else
      none
  | _ => none

/-- `parse_timestamp` (video_editor.py:13-42): regex-match the `mm:ss` pattern,
reject seconds ≥ 60, return `minutes * 60 + seconds`. -/
def parse_timestamp (timestamp : String) : Except VEError Nat :=
  match matchMMSS timestamp.toList with
  | none => .error .invalidFormat
  | some (minutes, seconds) =>
    if 60 ≤ seconds then .error .invalidSeconds
    else .ok (minutes * 60 + seconds)

/-- Decimal digit character for a value `n ≤ 9`. -/
def digitChar (n : Nat) : Char := Char.ofNat (48 + n)

/-- Big-endian decimal digits of a natural number (at least one digit). -/
def decDigits (n : Nat) : List Char :=
  if _h : n < 10 then [digitChar n]
  else decDigits (n / 10) ++ [digitChar (n % 10)]
decreasing_by
  exact Nat.div_lt_self (by omega) (by omega)

/-- Python's `f"{n:02d}"` for a non-negative value: zero-pad to width 2. -/
def fmt02 (n : Nat) : String :=
  if n < 10 then String.mk ('0' :: decDigits n) else String.mk (decDigits n)

/-- Python's `f"{i:02d}"` including the negative case (sign counts towards the
field width, so `-5` renders as `"-5"`). -/
def fmt02i (i : Int) : String :=
  if i < 0 then String.mk ('-' :: decDigits i.natAbs) else fmt02 i.toNat

/-- `format_timestamp` (video_editor.py:45-57):
`minutes = int(seconds // 60)`, `secs = int(seconds % 60)`, rendered as
`f"{minutes:02d}:{secs:02d}"`.  Python `//` is floor division and `%` the
matching remainder `s - 60 * (s // 60)`; both intermediate floats are
integral, so `int(...)` is exact. -/
def format_timestamp (seconds : ℚ) : String :=
  fmt02i ⌊seconds / 60⌋ ++ ":" ++ fmt02i ⌊seconds - 60 * (⌊seconds / 60⌋ : ℚ)⌋

/-- Value of a big-endian digit string, `int(...)` on a matched group. -/
def digitsVal (l : List Char) : Nat := l.foldl (fun a c => 10 * a + digitVal c) 0

/-- Characterization of the shape `parse_timestamp`'s regex accepts: a 1–2
digit minute group, a colon, an exactly-2-digit second group (digits being
Unicode decimal digits, `\d`), optionally followed by a single trailing
newline (`$`), with `m` and `sec` the decimal values of the two groups.
Stated independently of `matchMMSS` so that `parse_timestamp` can be proved
to accept exactly these strings. -/
def mmssShape (s : String) (m sec : Nat) : Prop :=
  ∃ md sd nl : List Char,
    s.toList = md ++ ':' :: (sd ++ nl) ∧
    (md.length = 1 ∨ md.length = 2) ∧
    sd.length = 2 ∧
    (nl = [] ∨ nl = ['\n']) ∧
    (∀ c ∈ md, isDig c = true) ∧
    (∀ c ∈ sd, isDig c = true) ∧
    m = digitsVal md ∧
    sec = digitsVal sd

/-- The strict `mm:ss` format exactly as the specification words it: one or
two of the plain digits `0`–`9`, a colon, exactly two plain digits, and
nothing else.  Spec-side checker, used to exhibit strings the program
accepts although they are not of the strict format. -/
def strict_mmss (s : String) : Bool :=
  match s.toList with
  | [a, b, c, d] =>
    b = ':' && decide ('0' ≤ a) && decide (a ≤ '9') && decide ('0' ≤ c) &&
      decide (c ≤ '9') && decide ('0' ≤ d) && decide (d ≤ '9')
  | [a, b, c, d, e] =>
    c = ':' && decide ('0' ≤ a) && decide (a ≤ '9') && decide ('0' ≤ b) &&
      decide (b ≤ '9') && decide ('0' ≤ d) && decide (d ≤ '9') &&
      decide ('0' ≤ e) && decide (e ≤ '9')
  | _ => false

/-! ## Trim planner (video_editor.py, `trim_video`) -/

/-- The ffmpeg request built by a successful `trim_video` run
(video_editor.py:118-127): input seek `ss`, output duration `t`, and the
codec option `c='copy'`; `warned` records whether the end-clamp warning was
printed (video_editor.py:98-103).  `trim_video` returning an error raises
before this request is built, so no trimming request is issued then. -/
structure TrimPlan where
  ss : ℚ
  t : ℚ
  c : String
  warned : Bool
deriving DecidableEq

/-- The expression `parse_timestamp(text) if text else default`
(video_editor.py:88-89): Python truthiness makes both `None` and the empty
string fall back to the default. -/
def eff_time (text : Option String) (dflt : ℚ) : Except VEError ℚ :=
  match text with
  | some s => if s = "" then .ok dflt else Except.map (fun n => (n : ℚ)) (parse_timestamp s)
  | none => .ok dflt

/-- `trim_video` (video_editor.py:60-135), with the ffprobe duration passed in
as `duration` (the probe itself is an external call).  Parses both timestamps
first (raising parse errors in that order), then applies the three range
checks, then builds the stream-copy trim request. -/
def trim_video (duration : ℚ) (start_from end_at : Option String) :
    Except VEError TrimPlan := do
  let start_seconds : ℚ ← eff_time start_from 0
  let end_parsed : ℚ ← eff_time end_at duration
  if duration ≤ start_seconds then
    throw .startBeyondDuration
  else
    let warned := decide (duration < end_parsed)
    let end_seconds := if duration < end_parsed then duration else end_parsed
    if end_seconds ≤ start_seconds then
      throw .startAfterEnd
    else
      pure { ss := start_seconds, t := end_seconds - start_seconds, c := "copy", warned := warned }

/-! ## Thumbnail processing (thumbnail_processor.py, `add_thumbnail_to_video`) -/

/-- A value of an ffmpeg keyword option. -/
inductive OptVal where
  | str (s : String)
  | num (q : ℚ)
deriving DecidableEq

/-- One ffmpeg input specifier with its keyword options. -/
structure FfInput where
  path : String
  opts : List (String × OptVal)
deriving DecidableEq

/-- One declarative ffmpeg invocation: inputs, output path, output options
(the keyword dictionary of the `.output(...)` call, in source order). -/
structure FfRequest where
  inputs : List FfInput
  output : String
  opts : List (String × OptVal)
deriving DecidableEq

/-- One stream as returned by `ffmpeg.probe(...)['streams']`; only the fields
the code reads are modelled. -/
structure ProbedStream where
  codec_type : String
  width : Nat
  height : Nat
  r_frame_rate : Option String
deriving DecidableEq

/-- Errors `add_thumbnail_to_video` can raise before issuing any request:
no video stream in the probe (thumbnail_processor.py:182-183), or a frame-rate
string on which Python `float()` / the division raises. -/
inductive ThumbError where
  | noVideoStream
  | badFrameRate
deriving DecidableEq

/-- Python `str.split(sep)` for a one-character separator. -/
def pySplitChar (sep : Char) : List Char → List (List Char)
  | [] => [[]]
  | c :: rest =>
    if c = sep then [] :: pySplitChar sep rest
    else
      match pySplitChar sep rest with
      | [] => [[c]]
      | h :: t => (c :: h) :: t

/-- Python `float(...)` on a character sequence, restricted to the plain
decimal forms `[+-]?digits`, `[+-]?digits.digits`, `[+-]?.digits`,
`[+-]?digits.` — all that occurs in ffprobe `r_frame_rate` fields (integer
ratios such as `"30/1"` or `"30000/1001"`).  `none` models the `ValueError`
raised on anything unparsable; exponent and whitespace forms never occur in
frame-rate ratios and are not modelled. -/
def pyFloatCore (l : List Char) : Option ℚ :=
  match l.span isDig with
  | (intPart, rest) =>
    match rest with
    | [] => if intPart = [] then none else some (digitsVal intPart)
    | '.' :: fracPart =>
      if (intPart = [] ∧ fracPart = []) ∨ ¬ fracPart.all isDig then none
      else some ((digitsVal intPart : ℚ) + (digitsVal fracPart : ℚ) / (10 : ℚ) ^ fracPart.length)
    | _ => none

/-- Python `float(s)`: optional sign, then `pyFloatCore`. -/
def pyFloat (s : String) : Option ℚ :=
  match s.toList with
  | '+' :: rest => pyFloatCore rest
  | '-' :: rest => Option.map (fun q => -q) (pyFloatCore rest)
  | l => pyFloatCore l

/-- The frame-rate computation (thumbnail_processor.py:188-190):
`fps_parts = video_stream.get('r_frame_rate', '30/1').split('/')` and
`fps = float(fps_parts[0]) / float(fps_parts[1]) if len(fps_parts) == 2 else 30.0`;
`none` models a raised `ValueError`/`ZeroDivisionError`. -/
def computeFps (r_frame_rate : Option String) : Option ℚ :=
  let parts := pySplitChar '/' (r_frame_rate.getD "30/1").toList
  match parts with
  | [p0, p1] => do
    let a ← pyFloat (String.mk p0)
    let b ← pyFloat (String.mk p1)
    if b = 0 then none else pure (a / b)
  | _ => some 30

/-- `add_thumbnail_to_video` (thumbnail_processor.py:150-232): probe the main
clip, take the first video stream (else fail), derive `fps` from its
`r_frame_rate`, then build two ffmpeg requests:
1. synthesize `thumbnail_video.mp4` from the still image
   (input `loop=1, t=duration`; output `vcodec='libx264', pix_fmt='yuv420p',
   r=fps, t=duration, 'c:a'='aac'`) — note the request has no audio input;
2. concatenate via the concat demuxer (`f='concat', safe=0`) with the single
   output option `c='copy'`.
Returns both requests together with the entries written to `concat_list.txt`
(title clip first, then the main clip). -/
def add_thumbnail_to_video (streams : List ProbedStream)
    (video_path thumbnail_path output_path : String) (thumbnail_duration : ℚ) :
    Except ThumbError (FfRequest × FfRequest × List String) :=
  match streams.find? (fun s => s.codec_type = "video") with
  | none => .error .noVideoStream
  | some video_stream =>
    match computeFps video_stream.r_frame_rate with
    | none => .error .badFrameRate
    | some fps =>
      let thumbnail_video := output_path ++ "/thumbnail_video.mp4"
      let synth : FfRequest :=
        { inputs := [{ path := thumbnail_path,
                       opts := [("loop", .num 1), ("t", .num thumbnail_duration)] }],
          output := thumbnail_video,
          opts := [("vcodec", .str "libx264"), ("pix_fmt", .str "yuv420p"),
                   ("r", .num fps), ("t", .num thumbnail_duration),
                   ("c:a", .str "aac")] }
      let concat_entries := [thumbnail_video, video_path]
      let concat : FfRequest :=
        { inputs := [{ path := output_path ++ "/concat_list.txt",
                       opts := [("f", .str "concat"), ("safe", .num 0)] }],
          output := output_path ++ "/video_with_thumbnail.mp4",
          opts := [("c", .str "copy")] }
      .ok (synth, concat, concat_entries)

/-! ## Pipeline (pipeline.py) -/

/-- `ProcessingContext` (pipeline.py:21-37); paths are plain strings. -/
structure ProcessingContext where
  video_path : String
  processing_dir : String
  output_dir : String
  thumbnail_path : String
  timestamp : String
  title : Option String
  subtitle : Option String
  author : Option String
  start_from : Option String
  end_at : Option String
  thumbnail_duration : ℚ
  skip_transcription : Bool
  lang : String
deriving DecidableEq

/-- `VideoMetadata` (pipeline.py:40-46). -/
structure VideoMetadata where
  title : String
  description : String
  author : Option String
deriving DecidableEq

/-- Python truthiness of an `Optional[str]`: `None` and `""` are falsy. -/
def optTruthy : Option String → Bool
  | none => false
  | some s => !(s = "")

/-- Python `opt or dflt` on an `Optional[str]`: the first truthy operand. -/
def orStr (o : Option String) (dflt : String) : String :=
  match o with
  | some s => if s = "" then dflt else s
  | none => dflt

/-- The `{title, description}` dictionary returned by the content-generation
call. -/
structure GeneratedMeta where
  title : String
  description : String
deriving DecidableEq

/-- Parameter names of `generate_content_metadata` as defined in
`src/video_processor/content_generator.py:129-132`: the function accepts only
`(transcription, output_path)` — it has no `lang` parameter and no `**kwargs`. -/
def generate_content_metadata_params : List String := ["transcription", "output_path"]

/-- Keyword argument names passed at the call site
`generate_content_metadata(transcription, ctx.processing_dir, lang=ctx.lang)`
(pipeline.py:72). -/
def step_generate_metadata_kwargs : List String := ["lang"]

/-- Python call binding for the keyword part of a call: the call raises
`TypeError: got an unexpected keyword argument` unless every keyword names a
parameter of the callee. -/
def kwargsAccepted (params kwargs : List String) : Bool :=
  kwargs.all (fun k => params.contains k)

/-- The `TypeError` Python raises when a call passes a keyword argument the
callee does not accept. -/
inductive PipelineError where
  | typeError
deriving DecidableEq

/-- `step_generate_metadata` (pipeline.py:65-78).  The external
text-generation service is abstracted as `svc : transcription → lang →
GeneratedMeta`; the call to it only happens if Python call binding succeeds,
which it does not for the `lang=` keyword against the signature in
`content_generator.py` (see `generate_content_metadata_params`). -/
def step_generate_metadata (svc : String → String → GeneratedMeta)
    (ctx : ProcessingContext) (transcription : String) :
    Except PipelineError VideoMetadata := do
  let generated : GeneratedMeta ←
    if ctx.skip_transcription && optTruthy ctx.title then
      pure { title := ctx.title.getD "", description := orStr ctx.subtitle "Video content" }
    else
      if kwargsAccepted generate_content_metadata_params step_generate_metadata_kwargs then
        pure (svc transcription ctx.lang)
      else
        throw .typeError
  pure { title := orStr ctx.title generated.title,
         description := orStr ctx.subtitle generated.description,
         author := ctx.author }

/-- The effect chosen by `step_trim_video` (pipeline.py:81-95): either a call
into the trim planner, or a `shutil.copy2` of the source into the
trimmed-artifact slot. -/
inductive TrimStepAction where
  | trimCall (video_path processing_dir : String) (start_from end_at : Option String)
  | copySource (video_path trimmed_video : String)
deriving DecidableEq

/-- `step_trim_video` (pipeline.py:81-95): the planner runs only when at least
one of `start_from` / `end_at` is truthy; otherwise the source is copied to
`processing_dir/trimmed_video.mp4`. -/
def step_trim_video (ctx : ProcessingContext) : TrimStepAction :=
  if optTruthy ctx.start_from || optTruthy ctx.end_at then
    .trimCall ctx.video_path ctx.processing_dir ctx.start_from ctx.end_at
  else
    .copySource ctx.video_path (ctx.processing_dir ++ "/trimmed_video.mp4")

/-- `shutil.copy2` contract on file content: the destination receives exactly
the source bytes (no decode/re-encode of the media). -/
def copy2 (srcBytes : List Nat) : List Nat := srcBytes

/-- The `output_metadata` dictionary written by `save_output`
(pipeline.py:131-135): `{"title": ..., "description": ..., "author": ...}`
taken field-for-field from the final `VideoMetadata`. -/
structure SidecarMetadata where
  title : String
  description : String
  author : Option String
deriving DecidableEq

/-- `save_output` (pipeline.py:123-139), restricted to the sidecar content it
persists. -/
def save_output_metadata (metadata : VideoMetadata) : SidecarMetadata :=
  { title := metadata.title,
    description := metadata.description,
    author := metadata.author }

/-! ## Helper lemmas -/

theorem eff_time_of_parse {text : String} {n : Nat}
    (h : parse_timestamp text = .ok n) (dflt : ℚ) :
    eff_time (some text) dflt = .ok (n : ℚ) := by
  have hne : text ≠ "" := by
    intro hh
    rw [hh] at h
    have hcontra : parse_timestamp "" = .error .invalidFormat := by decide
    rw [hcontra] at h
    exact Except.noConfusion h
  simp [eff_time, hne, h, Except.map]

theorem digitsVal_one (a : Char) : digitsVal [a] = digitVal a := by
  simp [digitsVal]

theorem digitsVal_two (a b : Char) : digitsVal [a, b] = 10 * digitVal a + digitVal b := by
  simp [digitsVal]

/-- A character the regex matched as `\d` is not the colon. -/
theorem ne_colon_of_isDig {c : Char} (h : isDig c = true) : c ≠ ':' := by
  intro hc
  rw [hc] at h
  exact absurd h (by decide)

/-- A character the regex matched as `\d` is not a newline. -/
theorem ne_newline_of_isDig {c : Char} (h : isDig c = true) : c ≠ '\n' := by
  intro hc
  rw [hc] at h
  exact absurd h (by decide)

/-- Soundness half of the regex model: a string of the accepted shape
(with or without the trailing newline) matches, with the numeric group
values. -/
theorem matchMMSS_of_shape (md sd nl : List Char)
    (hm : md.length = 1 ∨ md.length = 2) (hs : sd.length = 2)
    (hnl : nl = [] ∨ nl = ['\n'])
    (hmd : ∀ c ∈ md, isDig c = true) (hsd : ∀ c ∈ sd, isDig c = true) :
    matchMMSS (md ++ ':' :: (sd ++ nl)) = some (digitsVal md, digitsVal sd) := by
  obtain ⟨c, d, rfl⟩ := List.length_eq_two.mp hs
  have hc : isDig c = true := hsd c (by simp)
  have hd : isDig d = true := hsd d (by simp)
  rcases hnl with rfl | rfl <;> rcases hm with hm | hm
  · obtain ⟨a, rfl⟩ := List.length_eq_one.mp hm
    have ha : isDig a = true := hmd a (by simp)
    simp [matchMMSS, ha, hc, hd, ne_colon_of_isDig hc, ne_newline_of_isDig hd,
      digitsVal_one, digitsVal_two]
  · obtain ⟨a, b, rfl⟩ := List.length_eq_two.mp hm
    have ha : isDig a = true := hmd a (by simp)
    have hb : isDig b = true := hmd b (by simp)
    simp [matchMMSS, ha, hb, hc, hd, ne_colon_of_isDig hb, digitsVal_two]
  · obtain ⟨a, rfl⟩ := List.length_eq_one.mp hm
    have ha : isDig a = true := hmd a (by simp)
    simp [matchMMSS, ha, hc, hd, digitsVal_one, digitsVal_two]
  · obtain ⟨a, b, rfl⟩ := List.length_eq_two.mp hm
    have ha : isDig a = true := hmd a (by simp)
    have hb : isDig b = true := hmd b (by simp)
    simp [matchMMSS, ha, hb, hc, hd, digitsVal_two]

/-- Completeness half of the regex model: any successful match decomposes the
character list into the accepted shape. -/
theorem shape_of_matchMMSS (l : List Char) (m sec : Nat)
    (h : matchMMSS l = some (m, sec)) :
    ∃ md sd nl : List Char,
      l = md ++ ':' :: (sd ++ nl) ∧
      (md.length = 1 ∨ md.length = 2) ∧
      sd.length = 2 ∧
      (nl = [] ∨ nl = ['\n']) ∧
      (∀ c ∈ md, isDig c = true) ∧
      (∀ c ∈ sd, isDig c = true) ∧
      m = digitsVal md ∧
      sec = digitsVal sd := by
  match l with
  | [] => exact absurd h (by simp [matchMMSS])
  | [a] => exact absurd h (by simp [matchMMSS])
  | [a, b] => exact absurd h (by simp [matchMMSS])
  | [a, b, c] => exact absurd h (by simp [matchMMSS])
  | [a, b, c, d] =>
    rw [matchMMSS] at h
    split_ifs at h with hcond
    simp only [Bool.and_eq_true, decide_eq_true_eq] at hcond
    obtain ⟨⟨⟨hb, ha⟩, hc⟩, hd⟩ := hcond
    simp only [Option.some.injEq, Prod.mk.injEq] at h
    obtain ⟨hm2, hs2⟩ := h
    subst hb
    refine ⟨[a], [c, d], [], rfl, Or.inl rfl, rfl, Or.inl rfl, ?_, ?_, ?_, ?_⟩
    · intro x hx
      rw [List.mem_singleton] at hx
      subst hx
      exact ha
    · intro x hx
      simp only [List.mem_cons, List.mem_singleton] at hx
      rcases hx with rfl | rfl | hx
      · exact hc
      · exact hd
      · exact absurd hx (List.not_mem_nil x)
    · rw [digitsVal_one]
      exact hm2.symm
    · rw [digitsVal_two]
      exact hs2.symm
  | [a, b, c, d, e] =>
    rw [matchMMSS] at h
    split_ifs at h with hcond1 hcond2
    · simp only [Bool.and_eq_true, decide_eq_true_eq] at hcond1
      obtain ⟨⟨⟨⟨hb, he⟩, ha⟩, hc⟩, hd⟩ := hcond1
      simp only [Option.some.injEq, Prod.mk.injEq] at h
      obtain ⟨hm2, hs2⟩ := h
      subst hb
      subst he
      refine ⟨[a], [c, d], ['\n'], rfl, Or.inl rfl, rfl, Or.inr rfl, ?_, ?_, ?_, ?_⟩
      · intro x hx
        rw [List.mem_singleton] at hx
        subst hx
        exact ha
      · intro x hx
        simp only [List.mem_cons, List.mem_singleton] at hx
        rcases hx with rfl | rfl | hx
        · exact hc
        · exact hd
        · exact absurd hx (List.not_mem_nil x)
      · rw [digitsVal_one]
        exact hm2.symm
      · rw [digitsVal_two]
        exact hs2.symm
    · simp only [Bool.and_eq_true, decide_eq_true_eq] at hcond2
      obtain ⟨⟨⟨⟨hc, ha⟩, hb⟩, hd⟩, he⟩ := hcond2
      simp only [Option.some.injEq, Prod.mk.injEq] at h
      obtain ⟨hm2, hs2⟩ := h
      subst hc
      refine ⟨[a, b], [d, e], [], rfl, Or.inr rfl, rfl, Or.inl rfl, ?_, ?_, ?_, ?_⟩
      · intro x hx
        simp only [List.mem_cons, List.mem_singleton] at hx
        rcases hx with rfl | rfl | hx
        · exact ha
        · exact hb
        · exact absurd hx (List.not_mem_nil x)
      · intro x hx
        simp only [List.mem_cons, List.mem_singleton] at hx
        rcases hx with rfl | rfl | hx
        · exact hd
        · exact he
        · exact absurd hx (List.not_mem_nil x)
      · rw [digitsVal_two]
        exact hm2.symm
      · rw [digitsVal_two]
        exact hs2.symm
  | [a, b, c, d, e, f] =>
    rw [matchMMSS] at h
    split_ifs at h with hcond
    simp only [Bool.and_eq_true, decide_eq_true_eq] at hcond
    obtain ⟨⟨⟨⟨⟨hc, hf⟩, ha⟩, hb⟩, hd⟩, he⟩ := hcond
    simp only [Option.some.injEq, Prod.mk.injEq] at h
    obtain ⟨hm2, hs2⟩ := h
    subst hc
    subst hf
    refine ⟨[a, b], [d, e], ['\n'], rfl, Or.inr rfl, rfl, Or.inr rfl, ?_, ?_, ?_, ?_⟩
    · intro x hx
      simp only [List.mem_cons, List.mem_singleton] at hx
      rcases hx with rfl | rfl | hx
      · exact ha
      · exact hb
      · exact absurd hx (List.not_mem_nil x)
    · intro x hx
      simp only [List.mem_cons, List.mem_singleton] at hx
      rcases hx with rfl | rfl | hx
      · exact hd
      · exact he
      · exact absurd hx (List.not_mem_nil x)
    · rw [digitsVal_two]
      exact hm2.symm
    · rw [digitsVal_two]
      exact hs2.symm
  | a :: b :: c :: d :: e :: f :: g :: rest =>
    exact absurd h (by simp [matchMMSS])

theorem decDigits_lt10 {n : Nat} (h : n < 10) : decDigits n = [digitChar n] := by
  unfold decDigits
  simp [h]

theorem decDigits_two_digit {n : Nat} (h1 : 10 ≤ n) (h2 : n ≤ 99) :
    decDigits n = [digitChar (n / 10), digitChar (n % 10)] := by
  rw [show decDigits n = decDigits (n / 10) ++ [digitChar (n % 10)] from by
    rw [decDigits.eq_def]
    rw [dif_neg (by omega)]]
  rw [decDigits_lt10 (by omega)]
  rfl

/-- `f"{n:02d}"` of a value ≤ 99 renders its two decimal digits (with a
leading zero below 10). -/
theorem fmt02_toList {n : Nat} (h : n ≤ 99) :
    (fmt02 n).toList = [digitChar (n / 10), digitChar (n % 10)] := by
  by_cases h10 : n < 10
  · have hd : n / 10 = 0 := by omega
    have hm : n % 10 = n := by omega
    rw [fmt02, if_pos h10, decDigits_lt10 h10, hd, hm]
    rfl
  · rw [fmt02, if_neg h10, decDigits_two_digit (by omega) h]
    rfl

theorem fmt02i_nonneg {i : Int} (h : 0 ≤ i) : fmt02i i = fmt02 i.toNat := by
  rw [fmt02i, if_neg (by omega)]

theorem isDig_digitChar {n : Nat} (h : n ≤ 9) : isDig (digitChar n) = true := by
  interval_cases n <;> decide

theorem digitVal_digitChar {n : Nat} (h : n ≤ 9) : digitVal (digitChar n) = n := by
  interval_cases n <;> decide

/-- `parse_timestamp` recovers `a * 60 + b` from the rendering of a pair of
in-range minute/second values. -/
theorem parse_fmt02_pair (a b : Nat) (ha : a ≤ 99) (hb : b ≤ 59) :
    parse_timestamp (fmt02 a ++ ":" ++ fmt02 b) = .ok (a * 60 + b) := by
  unfold parse_timestamp
  have htl : (fmt02 a ++ ":" ++ fmt02 b).toList =
      [digitChar (a / 10), digitChar (a % 10)] ++
        ':' :: ([digitChar (b / 10), digitChar (b % 10)] ++ []) := by
    show (fmt02 a ++ ":" ++ fmt02 b).data = _
    rw [String.data_append, String.data_append]
    rw [show (fmt02 a).data = (fmt02 a).toList from rfl, fmt02_toList ha]
    rw [show (fmt02 b).data = (fmt02 b).toList from rfl, fmt02_toList (by omega)]
    rfl
  have hda : ∀ c ∈ [digitChar (a / 10), digitChar (a % 10)], isDig c = true := by
    intro x hx
    simp only [List.mem_cons, List.mem_singleton] at hx
    rcases hx with rfl | rfl | hx
    · exact isDig_digitChar (by omega)
    · exact isDig_digitChar (by omega)
    · exact absurd hx (List.not_mem_nil x)
  have hdb : ∀ c ∈ [digitChar (b / 10), digitChar (b % 10)], isDig c = true := by
    intro x hx
    simp only [List.mem_cons, List.mem_singleton] at hx
    rcases hx with rfl | rfl | hx
    · exact isDig_digitChar (by omega)
    · exact isDig_digitChar (by omega)
    · exact absurd hx (List.not_mem_nil x)
  have hva : digitsVal [digitChar (a / 10), digitChar (a % 10)] = a := by
    rw [digitsVal_two, digitVal_digitChar (by omega), digitVal_digitChar (by omega)]
    omega
  have hvb : digitsVal [digitChar (b / 10), digitChar (b % 10)] = b := by
    rw [digitsVal_two, digitVal_digitChar (by omega), digitVal_digitChar (by omega)]
    omega
  rw [htl, matchMMSS_of_shape [digitChar (a / 10), digitChar (a % 10)]
    [digitChar (b / 10), digitChar (b % 10)] [] (Or.inr rfl) rfl (Or.inl rfl) hda hdb]
  dsimp only
  rw [hva, hvb]
  rw [if_neg (by omega)]

/-! ## Claim theorems -/

/-- C2: for every trim request whose start timestamp parses to a value at or
beyond the probed source duration, and whose end time has a value (absent,
or a parsed timestamp), `trim_video` fails with the `StartBeyondDuration`
error regardless of that end value; the error path returns before the
trimming request (the `TrimPlan`) is built. -/
theorem trim_start_beyond_duration (duration : ℚ) (start_from end_at : Option String)
    (sf : String) (n : Nat) (e : ℚ)
    (hsf : start_from = some sf)
    (hparse : parse_timestamp sf = .ok n)
    (hd : duration ≤ (n : ℚ))
    (he : eff_time end_at duration = .ok e) :
    trim_video duration start_from end_at = .error .startBeyondDuration := by
  unfold trim_video
  rw [hsf, eff_time_of_parse hparse, he]
  simp [Bind.bind, Except.bind, hd]
  rfl

/-- Witness for C2: duration 120 s, start `"99:00"` (5940 s), end absent. -/
theorem trim_start_beyond_duration_witness :
    parse_timestamp "99:00" = .ok 5940 ∧
    (120 : ℚ) ≤ ((5940 : Nat) : ℚ) ∧
    eff_time none 120 = .ok 120 ∧
    trim_video 120 (some "99:00") none = .error .startBeyondDuration :=
  ⟨by decide, by decide, by decide,
    trim_start_beyond_duration 120 (some "99:00") none "99:00" 5940 120 rfl
      (by decide) (by decide) (by decide)⟩

/-- C3: for every trim request whose effective start time is strictly below
the source duration and whose end timestamp parses to a value strictly above
the source duration, `trim_video` clamps the end to the duration, marks the
non-fatal warning, and succeeds with the stream-copy plan covering
`[start, duration)`. -/
theorem trim_end_clamped_warns (duration : ℚ) (start_from end_at : Option String)
    (s : ℚ) (ef : String) (n : Nat)
    (hs : eff_time start_from 0 = .ok s)
    (hlt : s < duration)
    (hef : end_at = some ef)
    (hparse : parse_timestamp ef = .ok n)
    (hgt : duration < (n : ℚ)) :
    trim_video duration start_from end_at =
      .ok { ss := s, t := duration - s, c := "copy", warned := true } := by
  unfold trim_video
  rw [hs, hef, eff_time_of_parse hparse]
  simp [Bind.bind, Except.bind, hgt, not_le.mpr hlt]
  rfl

/-- Witness for C3: duration 120 s, start `"00:05"`, end `"99:00"`. -/
theorem trim_end_clamped_warns_witness :
    eff_time (some "00:05") 0 = .ok 5 ∧
    (5 : ℚ) < 120 ∧
    parse_timestamp "99:00" = .ok 5940 ∧
    (120 : ℚ) < ((5940 : Nat) : ℚ) ∧
    trim_video 120 (some "00:05") (some "99:00") =
      .ok { ss := 5, t := 120 - 5, c := "copy", warned := true } :=
  ⟨by decide, by decide, by decide, by decide,
    trim_end_clamped_warns 120 (some "00:05") (some "99:00") 5 "99:00" 5940
      (by decide) (by decide) rfl (by decide) (by decide)⟩

/-- C4 (counterexample): the claim as stated — `start ≥ end` after clamping
always yields `StartAfterEnd` — is false when the start is also at or beyond
the source duration: with duration 10 s, start `"00:20"` (20 s) and end
`"00:05"` (5 s) the post-clamp end (5 s) is ≤ the start, yet `trim_video`
fails with `StartBeyondDuration`, because that check runs first. -/
theorem trim_start_after_end_counterexample :
    parse_timestamp "00:20" = .ok 20 ∧
    parse_timestamp "00:05" = .ok 5 ∧
    (if (10 : ℚ) < ((5 : Nat) : ℚ) then (10 : ℚ) else ((5 : Nat) : ℚ)) ≤ ((20 : Nat) : ℚ) ∧
    trim_video 10 (some "00:20") (some "00:05") = .error .startBeyondDuration ∧
    trim_video 10 (some "00:20") (some "00:05") ≠ .error .startAfterEnd := by
  refine ⟨by decide, by decide, by decide, by decide, ?_⟩
  intro h
  have h2 : trim_video 10 (some "00:20") (some "00:05") = .error .startBeyondDuration := by decide
  rw [h2] at h
  exact VEError.noConfusion (Except.error.inj h)

/-- C4 (amended): for every trim request whose effective start time is
strictly below the source duration, if the start is at or beyond the end time
after the end is clamped to the duration, `trim_video` fails with the
`StartAfterEnd` error. -/
theorem trim_start_after_end (duration : ℚ) (start_from end_at : Option String)
    (s e : ℚ)
    (hs : eff_time start_from 0 = .ok s)
    (he : eff_time end_at duration = .ok e)
    (hlt : s < duration)
    (hse : (if duration < e then duration else e) ≤ s) :
    trim_video duration start_from end_at = .error .startAfterEnd := by
  unfold trim_video
  rw [hs, he]
  simp [Bind.bind, Except.bind, not_le.mpr hlt, hse]
  rfl

/-- Witness for C4 (amended): duration 120 s, start `"00:30"`, end `"00:10"`. -/
theorem trim_start_after_end_witness :
    eff_time (some "00:30") 0 = .ok 30 ∧
    eff_time (some "00:10") 120 = .ok 10 ∧
    (30 : ℚ) < 120 ∧
    (if (120 : ℚ) < 10 then (120 : ℚ) else 10) ≤ 30 ∧
    trim_video 120 (some "00:30") (some "00:10") = .error .startAfterEnd :=
  ⟨by decide, by decide, by decide, by decide,
    trim_start_after_end 120 (some "00:30") (some "00:10") 30 10
      (by decide) (by decide) (by decide) (by decide)⟩

/-- C5: whenever neither a start nor an end timestamp is supplied (absent or
empty, per Python truthiness), `step_trim_video` bypasses the trim planner:
it takes the copy branch targeting the trimmed-artifact slot
`processing_dir/trimmed_video.mp4`, and the `shutil.copy2` it performs is the
identity on the source bytes (no re-encode). -/
theorem step_trim_video_bypass (ctx : ProcessingContext)
    (h1 : optTruthy ctx.start_from = false)
    (h2 : optTruthy ctx.end_at = false) :
    step_trim_video ctx =
      .copySource ctx.video_path (ctx.processing_dir ++ "/trimmed_video.mp4") ∧
    ∀ srcBytes : List Nat, copy2 srcBytes = srcBytes := by
  constructor
  · simp [step_trim_video, h1, h2]
  · intro srcBytes
    rfl

/-- Witness for C5: a context with no timestamps takes the copy branch. -/
theorem step_trim_video_bypass_witness :
    optTruthy (none : Option String) = false ∧
    step_trim_video
      { video_path := "input/test_video.mp4", processing_dir := "processing/20240101_120000",
        output_dir := "output", thumbnail_path := "thumbnails/raise.png",
        timestamp := "20240101_120000", title := none, subtitle := none, author := none,
        start_from := none, end_at := none, thumbnail_duration := 5,
        skip_transcription := false, lang := "nl" } =
      .copySource "input/test_video.mp4" ("processing/20240101_120000" ++ "/trimmed_video.mp4") ∧
    copy2 [1, 2, 3] = [1, 2, 3] :=
  ⟨by decide,
    (step_trim_video_bypass
      { video_path := "input/test_video.mp4", processing_dir := "processing/20240101_120000",
        output_dir := "output", thumbnail_path := "thumbnails/raise.png",
        timestamp := "20240101_120000", title := none, subtitle := none, author := none,
        start_from := none, end_at := none, thumbnail_duration := 5,
        skip_transcription := false, lang := "nl" } (by decide) (by decide)).1,
    (step_trim_video_bypass
      { video_path := "input/test_video.mp4", processing_dir := "processing/20240101_120000",
        output_dir := "output", thumbnail_path := "thumbnails/raise.png",
        timestamp := "20240101_120000", title := none, subtitle := none, author := none,
        start_from := none, end_at := none, thumbnail_duration := 5,
        skip_transcription := false, lang := "nl" } (by decide) (by decide)).2 [1, 2, 3]⟩

/-- Python `o or (o or d)` collapses to `o or d`. -/
theorem orStr_absorb (o : Option String) (d : String) : orStr o (orStr o d) = orStr o d := by
  cases o with
  | none => rfl
  | some s =>
    simp only [orStr]
    split <;> rfl

/-- C1 (counterexample): the claim that the join re-encodes both streams
rather than performing a raw stream-copy concatenation is false: for a main
clip probed as a 1920×1080 video stream at `r_frame_rate = "30/1"`, the
concatenation request built by `add_thumbnail_to_video` carries the single
output option `c='copy'` — a raw stream-copy concat-demuxer join. -/
theorem concat_is_stream_copy_counterexample :
    Except.map (fun r => r.2.1.opts)
      (add_thumbnail_to_video
        [{ codec_type := "video", width := 1920, height := 1080, r_frame_rate := some "30/1" }]
        "trimmed_video.mp4" "thumbnail_with_text.png" "processing" 5) =
      .ok [("c", OptVal.str "copy")] := by
  decide

/-- C1 (amended): for every join of a title clip with a main clip, the title
clip is first synthesized by re-encoding into a common codec, pixel format
and frame rate (`libx264`, `yuv420p`, frame rate taken from the main clip's
probed `r_frame_rate`) so that its stream parameters match the main clip;
the join of the two files itself is then performed by the concat demuxer
with stream copy (`c='copy'`), not by re-encoding both streams. -/
theorem concat_reencodes_title_clip_only (streams : List ProbedStream)
    (vs : ProbedStream) (fps : ℚ) (vp tp op : String) (dur : ℚ)
    (hfind : streams.find? (fun s => s.codec_type = "video") = some vs)
    (hfps : computeFps vs.r_frame_rate = some fps) :
    ∃ synth concat : FfRequest, ∃ entries : List String,
      add_thumbnail_to_video streams vp tp op dur = .ok (synth, concat, entries) ∧
      ("vcodec", OptVal.str "libx264") ∈ synth.opts ∧
      ("pix_fmt", OptVal.str "yuv420p") ∈ synth.opts ∧
      ("r", OptVal.num fps) ∈ synth.opts ∧
      concat.opts = [("c", OptVal.str "copy")] ∧
      entries = [op ++ "/thumbnail_video.mp4", vp] := by
  unfold add_thumbnail_to_video
  rw [hfind]
  dsimp only
  rw [hfps]
  exact ⟨_, _, _, rfl, by simp, by simp, by simp, rfl, rfl⟩

/-- Witness for C1 (amended): a main clip whose probed frame-rate field is
`"30"` (a one-part ratio, so the 30 fps branch is taken). -/
theorem concat_reencodes_title_clip_only_witness :
    List.find? (fun s => s.codec_type = "video")
      [({ codec_type := "video", width := 1920, height := 1080,
          r_frame_rate := some "30" } : ProbedStream)] =
      some { codec_type := "video", width := 1920, height := 1080, r_frame_rate := some "30" } ∧
    computeFps (some "30") = some 30 ∧
    (∃ synth concat : FfRequest, ∃ entries : List String,
      add_thumbnail_to_video
        [{ codec_type := "video", width := 1920, height := 1080, r_frame_rate := some "30" }]
        "trimmed_video.mp4" "thumbnail_with_text.png" "processing" 5 =
        .ok (synth, concat, entries) ∧
      ("vcodec", OptVal.str "libx264") ∈ synth.opts ∧
      ("pix_fmt", OptVal.str "yuv420p") ∈ synth.opts ∧
      ("r", OptVal.num 30) ∈ synth.opts ∧
      concat.opts = [("c", OptVal.str "copy")] ∧
      entries = ["processing" ++ "/thumbnail_video.mp4", "trimmed_video.mp4"]) :=
  ⟨by decide, by decide,
    concat_reencodes_title_clip_only
      [{ codec_type := "video", width := 1920, height := 1080, r_frame_rate := some "30" }]
      { codec_type := "video", width := 1920, height := 1080, r_frame_rate := some "30" }
      30 "trimmed_video.mp4" "thumbnail_with_text.png" "processing" 5
      (by decide) (by decide)⟩

/-- C6: whenever transcription is skipped and a (truthy) title is supplied,
the metadata step returns the same `VideoMetadata` for every possible
text-generation service — i.e. it is built from user input without calling
the service — its title is the user title unchanged, and the sidecar record
persisted by `save_output` carries that same title. -/
theorem metadata_user_title_precedence (ctx : ProcessingContext) (t : String)
    (h1 : ctx.skip_transcription = true)
    (h2 : ctx.title = some t)
    (h3 : t ≠ "") :
    ∃ m : VideoMetadata,
      (∀ svc tr, step_generate_metadata svc ctx tr = .ok m) ∧
      m.title = t ∧
      (save_output_metadata m).title = t := by
  refine ⟨{ title := t, description := orStr ctx.subtitle "Video content",
            author := ctx.author }, ?_, rfl, rfl⟩
  intro svc tr
  unfold step_generate_metadata
  have htr : optTruthy ctx.title = true := by simp [h2, optTruthy, h3]
  rw [h1, htr]
  simp [Bind.bind, Except.bind, h2, h3, orStr]
  cases hsub : ctx.subtitle with
  | none => simp [pure, Except.pure]
  | some s =>
    by_cases hs : s = "" <;> simp [hs, pure, Except.pure]

/-- Witness for C6: `skip_transcription = true`, `title = "Metadata Test"`. -/
theorem metadata_user_title_precedence_witness :
    ({ video_path := "input/test_video.mp4", processing_dir := "processing/20240101_120000",
       output_dir := "output", thumbnail_path := "thumbnails/raise.png",
       timestamp := "20240101_120000", title := some "Metadata Test", subtitle := none,
       author := none, start_from := none, end_at := none, thumbnail_duration := 5,
       skip_transcription := true, lang := "nl" } : ProcessingContext).skip_transcription = true ∧
    ("Metadata Test" : String) ≠ "" ∧
    (∃ m : VideoMetadata,
      (∀ svc tr, step_generate_metadata svc
        { video_path := "input/test_video.mp4", processing_dir := "processing/20240101_120000",
          output_dir := "output", thumbnail_path := "thumbnails/raise.png",
          timestamp := "20240101_120000", title := some "Metadata Test", subtitle := none,
          author := none, start_from := none, end_at := none, thumbnail_duration := 5,
          skip_transcription := true, lang := "nl" } tr = .ok m) ∧
      m.title = "Metadata Test" ∧
      (save_output_metadata m).title = "Metadata Test") :=
  ⟨rfl, by decide,
    metadata_user_title_precedence
      { video_path := "input/test_video.mp4", processing_dir := "processing/20240101_120000",
        output_dir := "output", thumbnail_path := "thumbnails/raise.png",
        timestamp := "20240101_120000", title := some "Metadata Test", subtitle := none,
        author := none, start_from := none, end_at := none, thumbnail_duration := 5,
        skip_transcription := true, lang := "nl" }
      "Metadata Test" rfl rfl (by decide)⟩

/-- C7 (code bug): on every path where transcription was not skipped or no
truthy title was supplied, `step_generate_metadata` attempts the call
`generate_content_metadata(transcription, ctx.processing_dir, lang=ctx.lang)`
(pipeline.py:72), but the function defined in
`src/video_processor/content_generator.py:129` accepts only
`(transcription, output_path)`, so Python call binding raises `TypeError`
and the step errors instead of returning generated metadata — for every
service behaviour and every transcript. -/
theorem metadata_generated_path_raises (svc : String → String → GeneratedMeta)
    (ctx : ProcessingContext) (tr : String)
    (h : ctx.skip_transcription = false ∨ optTruthy ctx.title = false) :
    step_generate_metadata svc ctx tr = .error .typeError := by
  unfold step_generate_metadata
  have hcond : (ctx.skip_transcription && optTruthy ctx.title) = false := by
    rcases h with h | h <;> simp [h]
  rw [hcond]
  have hkw : kwargsAccepted generate_content_metadata_params step_generate_metadata_kwargs
      = false := by decide
  rw [hkw]
  rfl

/-- Witness for C7: a run without `skip_transcription` hits the `TypeError`
path no matter what the service would have returned. -/
theorem metadata_generated_path_raises_witness :
    ({ video_path := "input/test_video.mp4", processing_dir := "processing/20240101_120000",
       output_dir := "output", thumbnail_path := "thumbnails/raise.png",
       timestamp := "20240101_120000", title := none, subtitle := none,
       author := none, start_from := none, end_at := none, thumbnail_duration := 5,
       skip_transcription := false, lang := "nl" } : ProcessingContext).skip_transcription
      = false ∧
    step_generate_metadata
      (fun _ _ => { title := "Generated Title", description := "Generated description" })
      { video_path := "input/test_video.mp4", processing_dir := "processing/20240101_120000",
        output_dir := "output", thumbnail_path := "thumbnails/raise.png",
        timestamp := "20240101_120000", title := none, subtitle := none,
        author := none, start_from := none, end_at := none, thumbnail_duration := 5,
        skip_transcription := false, lang := "nl" }
      "hello world" = .error .typeError :=
  ⟨rfl,
    metadata_generated_path_raises
      (fun _ _ => { title := "Generated Title", description := "Generated description" })
      { video_path := "input/test_video.mp4", processing_dir := "processing/20240101_120000",
        output_dir := "output", thumbnail_path := "thumbnails/raise.png",
        timestamp := "20240101_120000", title := none, subtitle := none,
        author := none, start_from := none, end_at := none, thumbnail_duration := 5,
        skip_transcription := false, lang := "nl" }
      "hello world" (Or.inl rfl)⟩

/-- C9 (code bug evidence): for the synthesis of a 5-second thumbnail video
from a main clip probed at `r_frame_rate = "30/1"`, the request issued to
the transcoding service has exactly one input (the still image — no audio
source such as `anullsrc`), output options exactly
`vcodec, pix_fmt, r, t, c:a` (so no `ar` sample-rate option and no `ac`
channel option — no 48 kHz stereo configuration), and the duration option
`t = 5` is present: the clip lasts `duration_seconds` but no silent audio
track is attached, contrary to the claim and to the code's own
`# Silent audio track` comment. -/
theorem synthesis_has_no_silent_audio :
    Except.map
      (fun r => (r.1.inputs.map FfInput.path,
                 r.1.opts.map Prod.fst,
                 r.1.opts.contains ("t", OptVal.num 5)))
      (add_thumbnail_to_video
        [{ codec_type := "video", width := 1920, height := 1080, r_frame_rate := some "30/1" }]
        "trimmed_video.mp4" "thumbnail_with_text.png" "processing" 5) =
      .ok (["thumbnail_with_text.png"], ["vcodec", "pix_fmt", "r", "t", "c:a"], true) := by
  decide

/-- C8 (counterexample): the claim that `parse_timestamp` accepts exactly
the strict `mm:ss` format — so that any other string fails with
`InvalidFormat` — is false: `"01:30\n"` is not of the strict format (it
carries a trailing newline), yet the program parses it to 90, because the
regex's `$` also matches just before a newline that ends the string. -/
theorem parse_strict_format_counterexample :
    strict_mmss "01:30\n" = false ∧ parse_timestamp "01:30\n" = .ok 90 := by
  constructor
  · decide
  · decide

/-- C8 (amended): `parse_timestamp` computes the four concrete examples as
specified (`"01:30" ↦ 90`, `"5:30" ↦ 330`, `"1:2:3" ↦ InvalidFormat`,
`"01:60" ↦ InvalidSeconds`), and in general it accepts exactly the `mm:ss`
shape in which the minute group is 1–2 digits and the second group exactly 2
digits — digits being Unicode decimal digits (`\d`), with a single trailing
newline also accepted (`$`): on any string of that shape it returns
`minutes * 60 + seconds` computed from the digits' decimal values, unless
the seconds value is ≥ 60 in which case it fails with `InvalidSeconds`; on
any string not of that shape it fails with `InvalidFormat`. -/
theorem parse_timestamp_characterization :
    parse_timestamp "01:30" = .ok 90 ∧
    parse_timestamp "5:30" = .ok 330 ∧
    parse_timestamp "1:2:3" = .error .invalidFormat ∧
    parse_timestamp "01:60" = .error .invalidSeconds ∧
    (∀ s m sec, mmssShape s m sec →
      parse_timestamp s = if 60 ≤ sec then .error .invalidSeconds else .ok (m * 60 + sec)) ∧
    (∀ s : String, (¬ ∃ m sec, mmssShape s m sec) → parse_timestamp s = .error .invalidFormat) := by
  refine ⟨by decide, by decide, by decide, by decide, ?_, ?_⟩
  · rintro s m sec ⟨md, sd, nl, hl, hm, hs, hnl, hmd, hsd, rfl, rfl⟩
    unfold parse_timestamp
    rw [hl, matchMMSS_of_shape md sd nl hm hs hnl hmd hsd]
  · intro s hn
    unfold parse_timestamp
    cases hmm : matchMMSS s.toList with
    | none => rfl
    | some p =>
      obtain ⟨m, sec⟩ := p
      obtain ⟨md, sd, nl, hl, hm, hs, hnl, hmd, hsd, hm2, hs2⟩ :=
        shape_of_matchMMSS s.toList m sec hmm
      exact absurd ⟨m, sec, md, sd, nl, hl, hm, hs, hnl, hmd, hsd, hm2, hs2⟩ hn

/-- Witness for C8 (amended): `"7:45\n"` has the accepted shape with values
7 and 45 (trailing newline), and parsing it follows the characterization. -/
theorem parse_timestamp_characterization_witness :
    mmssShape "7:45\n" 7 45 ∧
    parse_timestamp "7:45\n" =
      if 60 ≤ 45 then .error .invalidSeconds else .ok (7 * 60 + 45) :=
  ⟨⟨['7'], ['4', '5'], ['\n'], by decide, Or.inl rfl, rfl, Or.inr rfl,
      by decide, by decide, by decide, by decide⟩,
    parse_timestamp_characterization.2.2.2.2.1 "7:45\n" 7 45
      ⟨['7'], ['4', '5'], ['\n'], by decide, Or.inl rfl, rfl, Or.inr rfl,
        by decide, by decide, by decide, by decide⟩⟩

/-- C10: for every rational 0 ≤ s < 6000 (Python-float time values are exact
rationals in this range and both `//`/`%` round exactly, so the rational
model is faithful), `format_timestamp` emits a string that `parse_timestamp`
accepts, and parsing it back yields the integer floor of `s`: `parse` is a
left inverse of `format` up to truncation of fractional seconds. -/
theorem format_parse_floor (s : ℚ) (h0 : 0 ≤ s) (h6000 : s < 6000) :
    parse_timestamp (format_timestamp s) = .ok (⌊s⌋.toNat) := by
  have hm0 : 0 ≤ ⌊s / 60⌋ := Int.floor_nonneg.mpr (div_nonneg h0 (by norm_num))
  have hm99 : ⌊s / 60⌋ < 100 := by
    rw [Int.floor_lt]
    push_cast
    linarith
  have hfle : (⌊s / 60⌋ : ℚ) ≤ s / 60 := Int.floor_le _
  have hflt : s / 60 < ⌊s / 60⌋ + 1 := Int.lt_floor_add_one _
  have hr0 : 0 ≤ ⌊s - 60 * (⌊s / 60⌋ : ℚ)⌋ := Int.floor_nonneg.mpr (by linarith)
  have hr60 : ⌊s - 60 * (⌊s / 60⌋ : ℚ)⌋ < 60 := by
    rw [Int.floor_lt]
    push_cast
    linarith
  have hsub : ⌊s - 60 * (⌊s / 60⌋ : ℚ)⌋ = ⌊s⌋ - 60 * ⌊s / 60⌋ := by
    rw [show s - 60 * (⌊s / 60⌋ : ℚ) = s - ((60 * ⌊s / 60⌋ : Int) : ℚ) by push_cast; ring]
    rw [Int.floor_sub_int]
  have hfl0 : 0 ≤ ⌊s⌋ := Int.floor_nonneg.mpr h0
  rw [show format_timestamp s =
      fmt02 (⌊s / 60⌋).toNat ++ ":" ++ fmt02 (⌊s - 60 * (⌊s / 60⌋ : ℚ)⌋).toNat from by
    unfold format_timestamp
    rw [fmt02i_nonneg hm0, fmt02i_nonneg hr0]]
  rw [parse_fmt02_pair _ _ (by omega) (by omega)]
  have hr0s : 0 ≤ ⌊s⌋ - 60 * ⌊s / 60⌋ := hsub ▸ hr0
  rw [hsub]
  congr 1
  omega

/-- Witness for C10: at `s = 90` the round trip yields `⌊90⌋ = 90`. -/
theorem format_parse_floor_witness :
    (0 : ℚ) ≤ 90 ∧ (90 : ℚ) < 6000 ∧
    parse_timestamp (format_timestamp 90) = .ok (⌊(90 : ℚ)⌋.toNat) :=
  ⟨by decide, by decide, format_parse_floor 90 (by decide) (by decide)⟩

end VideoProcessor
